import Mathlib

/-!
Verification of the tastopo tile-grid assembly pipeline.

The Python sources are shallowly embedded over exact rationals (`ℚ` stands for
Python's real arithmetic) and integers.  Each definition is translated from one
function of the sources (`src/listmap.py`, `src/image.py`, `src/map.py`,
`src/layout.py`); doc comments name the source symbol.
-/

namespace Tastopo

/-- Python's built-in `round`: round half to even (banker's rounding), as used
throughout `listmap.py` (`TileGrid.grid`, `TileGrid.origin`, `TileGrid.pixelsize`). -/
def pyround (q : ℚ) : ℤ :=
  if Int.fract q < 1/2 then ⌊q⌋
  else if 1/2 < Int.fract q then ⌊q⌋ + 1
  else if ⌊q⌋ % 2 = 0 then ⌊q⌋ else ⌊q⌋ + 1

/-- Image-tile metadata for a map layer (`listmap.py`, class `Layer`): the
coordinates of the first tile (`Layer.origin`), the pixel size of a single
square tile (`Layer.tilesize`), and the per-level resolution in metres per
pixel (`Layer.resolution`). -/
structure Layer where
  origin : ℚ × ℚ
  tilesize : ℤ
  resolution : ℤ → ℚ

/-- Grid of tiles covering a real-world map area (`listmap.py`, class
`TileGrid`): a layer, a level of detail, a centre coordinate and a size in
metres. -/
structure TileGrid where
  layer : Layer
  level : ℤ
  centre : ℚ × ℚ
  size : ℚ × ℚ

namespace TileGrid

/-- Source `TileGrid.bbox`: coordinates `(x1, y1, x2, y2)` of the corners
bounding the map area, relative to the layer origin. -/
def bbox (g : TileGrid) : ℚ × ℚ × ℚ × ℚ :=
  (g.centre.1 - g.layer.origin.1 - g.size.1 / 2,
   g.centre.2 - g.layer.origin.2 - g.size.2 / 2,
   g.centre.1 - g.layer.origin.1 + g.size.1 / 2,
   g.centre.2 - g.layer.origin.2 + g.size.2 / 2)

/-- Source `TileGrid.tileunits`: convert a real-world distance in metres to a
number of tile widths. -/
def tileunits (g : TileGrid) (size : ℚ) : ℚ :=
  size / (g.layer.resolution g.level * g.layer.tilesize)

/-- Source `TileGrid.overflow`: proportion of a tile that the grid extends
beyond the map area by on each side, returned as `((left, right), (top,
bottom))`.  Python's `x % 1` on reals is the fractional part `Int.fract`. -/
def overflow (g : TileGrid) : (ℚ × ℚ) × (ℚ × ℚ) :=
  ((Int.fract (g.tileunits g.bbox.1), 1 - Int.fract (g.tileunits g.bbox.2.2.1)),
   (1 - Int.fract (g.tileunits g.bbox.2.2.2), Int.fract (g.tileunits g.bbox.2.1)))

/-- Source `TileGrid.grid`: the start tile (floor of the bounding box's
lower-left corner in tile units) and the shape of the grid of tiles. -/
def grid (g : TileGrid) : (ℤ × ℤ) × (ℤ × ℤ) :=
  ((⌊g.tileunits g.bbox.1⌋, ⌊g.tileunits g.bbox.2.1⌋),
   (pyround (g.tileunits g.size.1 + (g.overflow.1.1 + g.overflow.1.2)),
    pyround (g.tileunits g.size.2 + (g.overflow.2.1 + g.overflow.2.2))))

/-- Source `TileGrid.origin`: position of the first tile in pixels,
`(-round(left_overflow * tilesize), -round(top_overflow * tilesize))`. -/
def origin (g : TileGrid) : ℤ × ℤ :=
  (-(pyround (g.overflow.1.1 * g.layer.tilesize)),
   -(pyround (g.overflow.2.1 * g.layer.tilesize)))

/-- Source `TileGrid.pixelsize`: the grid dimensions in pixels,
`round(size / resolution)` per axis. -/
def pixelsize (g : TileGrid) : ℤ × ℤ :=
  (pyround (g.size.1 / g.layer.resolution g.level),
   pyround (g.size.2 / g.layer.resolution g.level))

/-- Python's `range(n, 0, -1)`: the list `[n, n-1, ..., 1]` (empty for
`n ≤ 0`), as iterated by `TileGrid.tiles`. -/
def descList (n : ℤ) : List ℤ :=
  (List.range n.toNat).map (fun (i : ℕ) => n - (i : ℤ))

/-- Source `TileGrid.tiles`: list of tile coordinates to cover the map area,
`[(start[0]+col, start[1]+row) for row in range(shape[1], 0, -1)
 for col in range(shape[0])]`. -/
def tiles (g : TileGrid) : List (ℤ × ℤ) :=
  (descList (g.grid).2.2).flatMap fun row =>
    (List.range (g.grid).2.1.toNat).map fun (col : ℕ) =>
      ((g.grid).1.1 + (col : ℤ), (g.grid).1.2 + row)

end TileGrid

/-- Source `image.stitch` (`image.py`): paste positions of the tiles on the
canvas.  The source keeps running coordinates `x, y`, pastes each decoded tile
image at `(x, y)`, advances `x` by the tile's width and wraps to the next band
(`x = 0`, `y += height`) once `x ≥ size[0]`.  Tiles are abstracted to their
decoded pixel dimensions `(width, height)`. -/
def pastePositions (tiles : List (ℤ × ℤ)) (size : ℤ × ℤ) : List (ℤ × ℤ) :=
  go tiles 0 0
where
  go : List (ℤ × ℤ) → ℤ → ℤ → List (ℤ × ℤ)
    | [], _, _ => []
    | (w, h) :: rest, x, y =>
      (x, y) :: (if x + w ≥ size.1 then go rest 0 (y + h) else go rest (x + w) y)

/-- Source `image.stitch` (`image.py`): the function allocates a canvas of
exactly its `size` argument (`Image.new('RGB', size)`), pastes the tiles at
`pastePositions`, and returns the canvas — its output dimensions are the
`size` argument and no crop is performed. -/
def stitch (tiles : List (ℤ × ℤ)) (size : ℤ × ℤ) : (ℤ × ℤ) × List (ℤ × ℤ) :=
  (size, pastePositions tiles size)

/-! ### Concurrent tile fetching (`listmap.py`, `MapData.getlayer` / `MapData._job`)

`MapData.getlayer` builds the tile list, puts every tile on a `Queue`, starts
`min(MAX_THREADS, len(tiles))` worker threads running `MapData._job`, and calls
`queue.join()`, which unblocks exactly when the queue's unfinished-task count
reaches zero.  `_job` loops: while the queue is non-empty it takes a tile,
calls `tile.fetch()` and then `queue.task_done()`.  A failing fetch raises out
of `_job`, killing that worker thread before `task_done` is called.

The model makes one loop iteration of `_job` atomic: a scheduled worker either
observes an empty queue and exits, or pops the head tile and fetches it —
recording the bytes and marking the task done on success, or dying on failure.
An arbitrary finite schedule of worker identifiers covers every interleaving
of iterations (the source's separate `queue.empty()` check and blocking
`queue.get()` only adds executions in which a worker blocks forever inside
`get()` without ever touching the unfinished-task count or any result).
There is no retry and no cancellation, as in the source. -/

/-- State of a worker thread running `MapData._job`: still looping, exited
normally after seeing an empty queue, or killed by an exception raised from
`tile.fetch()`. -/
inductive WStatus where
  | running : WStatus
  | finished : WStatus
  | dead : WStatus
deriving DecidableEq, Repr

/-- State of `MapData.getlayer`'s fetch phase: the pending queue of tile
positions, the queue's unfinished-task counter (`queue.join()` unblocks when
it is zero), the worker threads, and the bytes recorded on each tile object so
far. -/
structure FetchState where
  queue : List ℕ
  unfinished : ℕ
  workers : List WStatus
  results : ℕ → Option ℕ

/-- One atomic loop iteration of `MapData._job` by worker `w`.  `fetch i`
is the outcome of the single network request for the tile at input position
`i`: `some bytes` on a 2xx response, `none` when `raise_for_status` raises. -/
def workerStep (fetch : ℕ → Option ℕ) (s : FetchState) (w : ℕ) : FetchState :=
  if hw : w < s.workers.length then
    if s.workers.get ⟨w, hw⟩ = WStatus.running then
      match s.queue with
      | [] => { s with workers := s.workers.set w WStatus.finished }
      | i :: rest =>
        match fetch i with
        | some b =>
          { queue := rest, unfinished := s.unfinished - 1, workers := s.workers,
            results := fun j => if j = i then some b else s.results j }
        | none =>
          { queue := rest, unfinished := s.unfinished,
            workers := s.workers.set w WStatus.dead, results := s.results }
    else s
  else s

/-- Run the fetch phase under an arbitrary finite schedule of worker ids. -/
def runFetch (fetch : ℕ → Option ℕ) (s : FetchState) (sched : List ℕ) : FetchState :=
  sched.foldl (workerStep fetch) s

/-- Source `MapData.MAX_THREADS`. -/
def MAX_THREADS : ℕ := 8

/-- Initial fetch state of `MapData.getlayer` for `n` tiles: all tiles queued
in order, `n` unfinished tasks, `min(MAX_THREADS, n)` running workers, no
bytes recorded. -/
def initState (n : ℕ) : FetchState :=
  ⟨List.range n, n, List.replicate (min MAX_THREADS n) WStatus.running, fun _ => none⟩

/-- The fetch phase of `MapData.getlayer` for a tile list: queue indices refer
to positions in `tilelist`, and fetching position `i` performs the network
request for the coordinate `tilelist[i]`. -/
def runGetlayer (tilelist : List (ℤ × ℤ)) (fetchBytes : ℤ × ℤ → Option ℕ)
    (sched : List ℕ) : FetchState :=
  runFetch (fun i => fetchBytes (tilelist.getD i (0, 0))) (initState tilelist.length) sched

/-! ### Scale handling (`map.py`, `Image.__init__`) -/

/-- Source `map.py`, `Image.__init__`:
`scale_factor = 2 ** (math.log(self.scale / 100000, 2) % 1)`.
For `x > 0`, `2 ** (log2 x % 1) = x / 2 ** floor(log2 x)`, and
`floor(log2 x) = Int.log 2 x`, so the factor is `x / 2 ^ Int.log 2 x` with
`x = scale / 100000`. -/
def scaleFactor (scale : ℚ) : ℚ :=
  (scale / 100000) / 2 ^ (Int.log 2 (scale / 100000))

/-- Source `map.py`, `Image.LOD_BOUNDARY = 0.3`. -/
def LOD_BOUNDARY : ℚ := 3/10

/-- Source `map.py`, `Image.MIN_DPI = 267.17615604`. -/
def MIN_DPI : ℚ := 26717615604 / 100000000

/-- Source `map.py`, `Image.__init__`:
`self.zoom = int(zoom) + (1 if scale_factor - 1 > self.LOD_BOUNDARY else 0)`. -/
def zoomAdjust (scale : ℚ) (zoom : ℤ) : ℤ :=
  zoom + (if LOD_BOUNDARY < scaleFactor scale - 1 then 1 else 0)

/-- Failure of `Image.__init__`: for `scale ≤ 0` the call
`math.log(self.scale / 100000, 2)` raises `ValueError: math domain error`
(the spec's `InvalidScale`). -/
inductive ScaleError where
  | invalidScale : ScaleError
deriving DecidableEq, Repr

/-- The values `Image.__init__` computes from `scale` and `zoom` when it
succeeds: `self.dpi = MIN_DPI * scale_factor` and the adjusted `self.zoom`. -/
def imageValues (scale zoom : ℤ) : ℚ × ℤ :=
  (MIN_DPI * scaleFactor scale, zoomAdjust scale zoom)

/-- Source `map.py`, `Image.__init__` (scale-dependent part): fails iff the
argument of `math.log` is non-positive, i.e. iff `scale ≤ 0`. -/
def imageInit (scale zoom : ℤ) : Except ScaleError (ℚ × ℤ) :=
  if scale ≤ 0 then Except.error ScaleError.invalidScale
  else Except.ok (imageValues scale zoom)

/-! ### Grid overlay spacing (`layout.py`, `Layout._drawgrid`) -/

/-- Source `layout.py`, `Layout.MIN_GRID_SPACING = 30`. -/
def MIN_GRID_SPACING : ℚ := 30

/-- Source `Layout._drawgrid`: `km_size = 1e6 / int(self.image.scale)`. -/
def kmSize (scale : ℤ) : ℚ := 1000000 / scale

/-- Source `Layout._drawgrid`:
`grid_size = math.ceil(max(self.MIN_GRID_SPACING, km_size) / km_size)`. -/
def gridSize (scale : ℤ) : ℤ := ⌈max MIN_GRID_SPACING (kmSize scale) / kmSize scale⌉

/-- Source `Layout._drawgrid`: `spacing = grid_size * km_size`. -/
def gridSpacing (scale : ℤ) : ℚ := gridSize scale * kmSize scale

/-! ### Layer blending (`image.py`, `layer`) -/

/-- A decoded raster image: pixel dimensions and a pixel lookup.  Pixel values
model one 8-bit channel as an integer. -/
structure Raster where
  width : ℕ
  height : ℕ
  pix : ℕ → ℕ → ℤ

/-- Modelled from the spec: `image.layer` delegates per-pair merging to
`PIL.Image.blend(im1, im2, alpha)`, which is not part of this repository.
Its documented semantics is the per-pixel linear interpolation
`out = image1 * (1.0 - alpha) + image2 * alpha` (rounded to the integer pixel
mode), raising `ValueError` when the two images do not have matching sizes —
the spec's `DimensionMismatch`. -/
def blend (base overlay : Raster) (alpha : ℚ) : Option Raster :=
  if base.width = overlay.width ∧ base.height = overlay.height then
    some ⟨base.width, base.height, fun x y =>
      pyround ((1 - alpha) * base.pix x y + alpha * overlay.pix x y)⟩
  else none

/-- Source `image.layer`: successively blend each `(image, opacity)` pair on
top of the first layer. -/
def layerMerge (base : Raster) (overlays : List (Raster × ℚ)) : Option Raster :=
  overlays.foldl (fun acc p => acc.bind fun r => blend r p.1 p.2) (some base)

/-! ### Sheet construction (`map.py`, `Sheet`) -/

/-- Source `map.py`, `Sheet.MIN_PAPER_SIZE = 5`. -/
def MIN_PAPER_SIZE : ℕ := 5

/-- Modelled from the spec: `Sheet` inherits from `Paper` (`paper.py`), which
is absent from the sources; per the spec's sheet-size logic it records the
A-series paper size index of the requested size, exposed as `self.size`. -/
structure Sheet where
  size : ℕ
  rotated : Bool

/-- Source `map.py`, `Sheet.__init__`: stores the size and orientation, then
raises `ValueError('Paper size must not be smaller than A5')` when
`self.size > self.MIN_PAPER_SIZE`. -/
def sheetInit (size : ℕ) (rotated : Bool) : Except String Sheet :=
  if MIN_PAPER_SIZE < size then
    Except.error "Paper size must not be smaller than A5"
  else Except.ok ⟨size, rotated⟩

/-! ### Concrete instances used by witnesses and counterexamples -/

/-- A layer with tile origin `(0, 0)`, 256-pixel tiles and resolution 1 m/px
at every level (the shape of the data `Layer.properties` returns). -/
def exLayer : Layer := ⟨(0, 0), 256, fun _ => 1⟩

/-- A 600 m × 400 m request centred at `(428, 248)`: the bounding box corners
land at tile units `0.5` and `0.1875`/`1.75`, so the grid overflows by half a
tile on the left and a quarter tile on the top. -/
def exGridA : TileGrid := ⟨exLayer, 0, (428, 248), (600, 400)⟩

/-- A 600 m × 400 m request centred at `(530.4, 248)`: the left overflow of
`0.9` tile units forces a 4-column grid while the canvas `pixelsize` is only
600 pixels wide. -/
def exGridB : TileGrid := ⟨exLayer, 0, (2652/5, 248), (600, 400)⟩

/-- A fetch outcome with every request succeeding. -/
def exFetchOk : ℤ × ℤ → Option ℕ := fun c => some (c.1.toNat + 10 * c.2.toNat)

/-- A fetch outcome whose every request fails (non-2xx response). -/
def exFetchFail : ℕ → Option ℕ := fun _ => none

/-- Two 1×1 rasters for the blend boundary witness. -/
def exBase : Raster := ⟨1, 1, fun _ _ => 17⟩

/-- See `exBase`. -/
def exOverlay : Raster := ⟨1, 1, fun _ _ => 200⟩

/-- Number of worker threads killed by an exception from `tile.fetch()`. -/
def dcount (ws : List WStatus) : ℕ := ws.countP (fun w => w = WStatus.dead)

/-- Number of queued positions whose fetch would fail. -/
def failCount (fetch : ℕ → Option ℕ) (q : List ℕ) : ℕ :=
  q.countP (fun i => fetch i = none)

/-- Invariant of the fetch phase: the unfinished-task counter counts the
queued tiles plus the tiles taken by a worker that died before `task_done`;
dead workers account exactly for the failing tiles already taken; a worker
only exits normally once the queue is empty; every tile position is either
still queued or, if its fetch succeeds, its bytes are recorded; and the queue
and worker pool never grow. -/
def FetchInv (fetch : ℕ → Option ℕ) (n : ℕ) (s : FetchState) : Prop :=
  s.unfinished = s.queue.length + dcount s.workers ∧
  failCount fetch s.queue + dcount s.workers = failCount fetch (List.range n) ∧
  ((∃ w ∈ s.workers, w = WStatus.finished) → s.queue = []) ∧
  (∀ i < n, i ∈ s.queue ∨ (fetch i ≠ none → s.results i = fetch i)) ∧
  s.queue.length ≤ n ∧
  s.workers.length = min MAX_THREADS n

/-! ### Helper lemmas -/

theorem pyround_intCast (n : ℤ) : pyround n = n := by
  simp [pyround, Int.fract_intCast]

theorem pyround_le_add_half (q : ℚ) : (pyround q : ℚ) ≤ q + 1/2 := by
  have hfl : (⌊q⌋ : ℚ) ≤ q := Int.floor_le q
  have hq : (⌊q⌋ : ℚ) = q - Int.fract q := (Int.self_sub_fract q).symm
  unfold pyround
  split_ifs with h1 h2 h3 <;> push_cast <;> linarith

theorem sub_half_le_pyround (q : ℚ) : q - 1/2 ≤ (pyround q : ℚ) := by
  have hfr : Int.fract q < 1 := Int.fract_lt_one q
  have hq : (⌊q⌋ : ℚ) = q - Int.fract q := (Int.self_sub_fract q).symm
  unfold pyround
  split_ifs with h1 h2 h3 <;> push_cast <;> linarith

theorem pyround_mem_of_between (q : ℚ) (c : ℤ) (h0 : 0 ≤ q) (hc : q ≤ c) :
    0 ≤ pyround q ∧ pyround q ≤ c := by
  constructor
  · have h := sub_half_le_pyround q
    have h1 : ((-1 : ℤ) : ℚ) < (pyround q : ℚ) := by push_cast; linarith
    have h2 : (-1 : ℤ) < pyround q := by exact_mod_cast h1
    omega
  · have h := pyround_le_add_half q
    have h1 : (pyround q : ℚ) < ((c + 1 : ℤ) : ℚ) := by push_cast; linarith
    have h2 : pyround q < c + 1 := by exact_mod_cast h1
    omega

/-- The fractional overflows on opposite sides of an axis always complete the
span to a whole number of tiles: `u + (fract a + (1 - fract (a + u)))` is the
integer `⌊a + u⌋ - ⌊a⌋ + 1`. -/
theorem span_plus_overflow_eq (a u : ℚ) :
    u + (Int.fract a + (1 - Int.fract (a + u))) = ((⌊a + u⌋ - ⌊a⌋ + 1 : ℤ) : ℚ) := by
  simp only [Int.fract]
  push_cast
  ring

/-- The `x2` (resp. `y2`) bound of the bbox is the `x1` (resp. `y1`) bound
plus the requested size, in tile units. -/
theorem tileunits_x2 (g : TileGrid) :
    g.tileunits g.bbox.2.2.1 = g.tileunits g.bbox.1 + g.tileunits g.size.1 := by
  simp only [TileGrid.tileunits, TileGrid.bbox]
  rw [div_add_div_same]
  ring_nf

/-- See `tileunits_x2`. -/
theorem tileunits_y2 (g : TileGrid) :
    g.tileunits g.bbox.2.2.2 = g.tileunits g.bbox.2.1 + g.tileunits g.size.2 := by
  simp only [TileGrid.tileunits, TileGrid.bbox]
  rw [div_add_div_same]
  ring_nf

/-- Closed form of the grid shape: each axis spans from the tile containing
the low bound to the tile containing the high bound, inclusive. -/
theorem grid_shape_eq (g : TileGrid) :
    (g.grid).2 =
      (⌊g.tileunits g.bbox.1 + g.tileunits g.size.1⌋ - ⌊g.tileunits g.bbox.1⌋ + 1,
       ⌊g.tileunits g.bbox.2.1 + g.tileunits g.size.2⌋ - ⌊g.tileunits g.bbox.2.1⌋ + 1) := by
  have hx := span_plus_overflow_eq (g.tileunits g.bbox.1) (g.tileunits g.size.1)
  have hy := span_plus_overflow_eq (g.tileunits g.bbox.2.1) (g.tileunits g.size.2)
  have hyc : g.tileunits g.size.2 +
      ((1 - Int.fract (g.tileunits g.bbox.2.1 + g.tileunits g.size.2)) +
        Int.fract (g.tileunits g.bbox.2.1)) =
      ((⌊g.tileunits g.bbox.2.1 + g.tileunits g.size.2⌋ - ⌊g.tileunits g.bbox.2.1⌋ + 1 : ℤ) : ℚ) := by
    rw [← hy]; ring
  simp only [TileGrid.grid, TileGrid.overflow, tileunits_x2, tileunits_y2, hx, hyc,
    pyround_intCast]

/-- Each grid axis count strictly exceeds the requested span in tile units. -/
theorem span_lt_floor_count (a u : ℚ) :
    u < ((⌊a + u⌋ - ⌊a⌋ + 1 : ℤ) : ℚ) := by
  have h1 : a + u - 1 < (⌊a + u⌋ : ℚ) := Int.sub_one_lt_floor (a + u)
  have h2 : (⌊a⌋ : ℚ) ≤ a := Int.floor_le a
  push_cast
  linarith

/-- The pixel offset of one overflow proportion `f ∈ [0, 1]` lies in
`[-tilesize, 0]` after rounding and negation. -/
theorem neg_pyround_overflow_bounds (f : ℚ) (ts : ℤ) (hts : 0 < ts)
    (h0 : 0 ≤ f) (h1 : f ≤ 1) :
    -ts ≤ -pyround (f * ts) ∧ -pyround (f * ts) ≤ 0 := by
  have hq0 : 0 ≤ f * (ts : ℚ) := by positivity
  have hqc : f * (ts : ℚ) ≤ (ts : ℚ) :=
    mul_le_of_le_one_left (by exact_mod_cast hts.le) h1
  obtain ⟨hl, hr⟩ := pyround_mem_of_between (f * ts) ts hq0 hqc
  omega

/-! ### Claim theorems -/

/-- Claim C1 (amended): for every layer with positive tile size and positive
resolution and every positive requested size, `TileGrid.origin` returns
components each in `[-tilesize, 0]` — the negation of
`round(overflow * tilesize)`, not a value in `[0, tilesize)` as claimed — and
the grid shape covers the request: `columns * tilesize` and `rows * tilesize`
are each at least the requested size in pixels (`size / resolution`) along
that axis. -/
theorem grid_origin_and_coverage (g : TileGrid)
    (hts : 0 < g.layer.tilesize)
    (hres : 0 < g.layer.resolution g.level)
    (hw : 0 < g.size.1) (hh : 0 < g.size.2) :
    (-g.layer.tilesize ≤ (g.origin).1 ∧ (g.origin).1 ≤ 0) ∧
    (-g.layer.tilesize ≤ (g.origin).2 ∧ (g.origin).2 ≤ 0) ∧
    g.size.1 / g.layer.resolution g.level ≤ (((g.grid).2.1 * g.layer.tilesize : ℤ) : ℚ) ∧
    g.size.2 / g.layer.resolution g.level ≤ (((g.grid).2.2 * g.layer.tilesize : ℤ) : ℚ) := by
  have htsq : (0 : ℚ) < (g.layer.tilesize : ℚ) := by exact_mod_cast hts
  have hD : (0 : ℚ) < g.layer.resolution g.level * g.layer.tilesize :=
    mul_pos hres htsq
  refine ⟨?_, ?_, ?_, ?_⟩
  · -- left overflow is a fractional part, in [0, 1)
    have h0 : 0 ≤ (g.overflow).1.1 := Int.fract_nonneg _
    have h1 : (g.overflow).1.1 ≤ 1 := (Int.fract_lt_one _).le
    exact neg_pyround_overflow_bounds _ _ hts h0 h1
  · -- top overflow is one minus a fractional part, in (0, 1]
    have h0 : 0 ≤ (g.overflow).2.1 := by
      have := Int.fract_lt_one (g.tileunits g.bbox.2.2.2)
      simp only [TileGrid.overflow]
      linarith
    have h1 : (g.overflow).2.1 ≤ 1 := by
      have := Int.fract_nonneg (g.tileunits g.bbox.2.2.2)
      simp only [TileGrid.overflow]
      linarith
    exact neg_pyround_overflow_bounds _ _ hts h0 h1
  · have hshape : (g.grid).2.1 =
        ⌊g.tileunits g.bbox.1 + g.tileunits g.size.1⌋ - ⌊g.tileunits g.bbox.1⌋ + 1 := by
      rw [grid_shape_eq g]
    have hlt := span_lt_floor_count (g.tileunits g.bbox.1) (g.tileunits g.size.1)
    rw [← hshape] at hlt
    have hmul : g.tileunits g.size.1 * (g.layer.tilesize : ℚ) ≤
        ((g.grid).2.1 : ℚ) * (g.layer.tilesize : ℚ) :=
      mul_le_mul_of_nonneg_right hlt.le htsq.le
    have hval : g.tileunits g.size.1 * (g.layer.tilesize : ℚ) =
        g.size.1 / g.layer.resolution g.level := by
      field_simp [TileGrid.tileunits]
      ring
    rw [hval] at hmul
    push_cast
    exact hmul
  · have hshape : (g.grid).2.2 =
        ⌊g.tileunits g.bbox.2.1 + g.tileunits g.size.2⌋ - ⌊g.tileunits g.bbox.2.1⌋ + 1 := by
      rw [grid_shape_eq g]
    have hlt := span_lt_floor_count (g.tileunits g.bbox.2.1) (g.tileunits g.size.2)
    rw [← hshape] at hlt
    have hmul : g.tileunits g.size.2 * (g.layer.tilesize : ℚ) ≤
        ((g.grid).2.2 : ℚ) * (g.layer.tilesize : ℚ) :=
      mul_le_mul_of_nonneg_right hlt.le htsq.le
    have hval : g.tileunits g.size.2 * (g.layer.tilesize : ℚ) =
        g.size.2 / g.layer.resolution g.level := by
      field_simp [TileGrid.tileunits]
      ring
    rw [hval] at hmul
    push_cast
    exact hmul

/-- Witness for `grid_origin_and_coverage` at the concrete grid `exGridA`. -/
theorem grid_origin_and_coverage_witness :
    (0 < exGridA.layer.tilesize ∧ 0 < exGridA.layer.resolution exGridA.level ∧
      0 < exGridA.size.1 ∧ 0 < exGridA.size.2) ∧
    ((-exGridA.layer.tilesize ≤ (exGridA.origin).1 ∧ (exGridA.origin).1 ≤ 0) ∧
     (-exGridA.layer.tilesize ≤ (exGridA.origin).2 ∧ (exGridA.origin).2 ≤ 0) ∧
     exGridA.size.1 / exGridA.layer.resolution exGridA.level ≤
       (((exGridA.grid).2.1 * exGridA.layer.tilesize : ℤ) : ℚ) ∧
     exGridA.size.2 / exGridA.layer.resolution exGridA.level ≤
       (((exGridA.grid).2.2 * exGridA.layer.tilesize : ℤ) : ℚ)) := by
  have h1 : 0 < exGridA.layer.tilesize := by norm_num [exGridA, exLayer]
  have h2 : 0 < exGridA.layer.resolution exGridA.level := by norm_num [exGridA, exLayer]
  have h3 : 0 < exGridA.size.1 := by norm_num [exGridA]
  have h4 : 0 < exGridA.size.2 := by norm_num [exGridA]
  exact ⟨⟨h1, h2, h3, h4⟩, grid_origin_and_coverage exGridA h1 h2 h3 h4⟩

/-- Counterexample to claim C1 as stated: at `exGridA` the pixel origin is
`(-128, -64)`, whose components do not lie in `[0, tilesize)` — the source
negates `round(overflow * tilesize)`. -/
theorem origin_outside_claimed_range :
    TileGrid.origin exGridA = (-128, -64) ∧ ¬ (0 ≤ (TileGrid.origin exGridA).1) := by
  have h : TileGrid.origin exGridA = (-128, -64) := by
    simp only [TileGrid.origin, TileGrid.overflow, TileGrid.bbox, TileGrid.tileunits,
      exGridA, exLayer, pyround, Int.fract]
    norm_num
  refine ⟨h, ?_⟩
  rw [h]
  norm_num

/-- Concatenating `R` blocks of `C` elements each enumerates `R * C` indices
in raster-scan order: element `n` sits in block `n / C` at offset `n % C`. -/
theorem range_flatMap_map {α : Type} (f : ℕ → ℕ → α) (R C : ℕ) :
    (List.range R).flatMap (fun r => (List.range C).map (f r)) =
      (List.range (R * C)).map (fun n => f (n / C) (n % C)) := by
  induction R with
  | zero => simp
  | succ R ih =>
    rw [List.range_succ, List.flatMap_append, ih, Nat.succ_mul, List.range_add,
      List.map_append]
    congr 1
    simp only [List.flatMap_cons, List.flatMap_nil, List.append_nil, List.map_map]
    refine List.map_congr_left ?_
    intro j hj
    have hjC : j < C := List.mem_range.mp hj
    have hC : 0 < C := Nat.zero_lt_of_lt hjC
    have hd : (R * C + j) / C = R := by
      rw [Nat.add_comm, Nat.add_mul_div_right _ _ hC, Nat.div_eq_of_lt hjC, Nat.zero_add]
    have hm : (R * C + j) % C = j := by
      rw [Nat.add_comm, Nat.add_mul_mod_self_right, Nat.mod_eq_of_lt hjC]
    simp only [Function.comp_apply, hd, hm]

/-- Closed raster-scan form of `TileGrid.tiles`. -/
theorem tiles_closed_form (g : TileGrid) :
    g.tiles = (List.range ((g.grid).2.2.toNat * (g.grid).2.1.toNat)).map
      (fun n => ((g.grid).1.1 + ((n % (g.grid).2.1.toNat : ℕ) : ℤ),
                 (g.grid).1.2 + ((g.grid).2.2 - ((n / (g.grid).2.1.toNat : ℕ) : ℤ)))) := by
  unfold TileGrid.tiles TileGrid.descList
  rw [List.flatMap_map, range_flatMap_map
    (fun i c => ((g.grid).1.1 + (c : ℤ), (g.grid).1.2 + ((g.grid).2.2 - (i : ℤ))))]

/-- Claim C2 (amended): the start tile is the componentwise floor of the
bounding box's lower-left corner in tile units, and the tile list is the
raster scan whose element `n` has column `start.col + n % columns` (columns
left to right) and row `start.row + rows - n / columns` — the rows enumerate
`start.row + 1 .. start.row + rows` from the top down, not
`start.row .. start.row + rows - 1` as claimed. -/
theorem tiles_enumeration (g : TileGrid) :
    (g.grid).1 = (⌊g.tileunits g.bbox.1⌋, ⌊g.tileunits g.bbox.2.1⌋) ∧
    g.tiles = (List.range ((g.grid).2.2.toNat * (g.grid).2.1.toNat)).map
      (fun n => ((g.grid).1.1 + ((n % (g.grid).2.1.toNat : ℕ) : ℤ),
                 (g.grid).1.2 + ((g.grid).2.2 - ((n / (g.grid).2.1.toNat : ℕ) : ℤ)))) :=
  ⟨rfl, tiles_closed_form g⟩

/-- Counterexample to claim C2 as stated: at `exGridA` the grid starts at
`(0, 0)` with shape `(3, 2)`, yet the fetched rows are `1` and `2` — the tile
`(0, 2)` lies outside the claimed row range `0 .. rows - 1 = 1`, and no tile
with the claimed starting row `0` is fetched at all. -/
theorem tiles_row_outside_claimed_range :
    TileGrid.grid exGridA = ((0, 0), (3, 2)) ∧
    TileGrid.tiles exGridA = [(0, 2), (1, 2), (2, 2), (0, 1), (1, 1), (2, 1)] ∧
    (0, 2) ∈ TileGrid.tiles exGridA ∧
    ¬ ((2 : ℤ) ≤ (TileGrid.grid exGridA).1.2 + (TileGrid.grid exGridA).2.2 - 1) ∧
    ∀ t ∈ TileGrid.tiles exGridA, t.2 ≠ (TileGrid.grid exGridA).1.2 := by
  have hg : TileGrid.grid exGridA = ((0, 0), (3, 2)) := by
    simp only [TileGrid.grid, TileGrid.overflow, TileGrid.bbox, TileGrid.tileunits,
      exGridA, exLayer, pyround, Int.fract]
    norm_num
  have ht : TileGrid.tiles exGridA = [(0, 2), (1, 2), (2, 2), (0, 1), (1, 1), (2, 1)] := by
    unfold TileGrid.tiles
    rw [hg]
    decide
  refine ⟨hg, ht, ?_, ?_, ?_⟩
  · rw [ht]; decide
  · rw [hg]; decide
  · rw [ht, hg]; decide

/-- Claim C3 (code evidence): `image.stitch` does not behave as claimed.  At
`exGridB` the grid shape is `(4, 2)`, so the claimed canvas would be
`(4*256, 2*256) = (1024, 512)` pixels; but `MapData.getlayer` passes
`grid.pixelsize() = (600, 400)` as the canvas size, the pasted positions wrap
at the 600-pixel canvas width (the 4th tile lands at `(0, 256)` instead of the
claimed `(3*256, 0)`), and no crop at `pixelOrigin` exists — indeed
`image.stitch` only accepts two arguments while `getlayer` passes three, so
the call raises `TypeError` before any pasting happens. -/
theorem stitch_canvas_mismatch :
    TileGrid.grid exGridB = ((0, 0), (4, 2)) ∧
    TileGrid.pixelsize exGridB = (600, 400) ∧
    (TileGrid.tiles exGridB).length = 8 ∧
    stitch (List.replicate 8 (256, 256)) (600, 400) =
      ((600, 400),
        [(0, 0), (256, 0), (512, 0), (0, 256), (256, 256), (512, 256), (0, 512), (256, 512)]) ∧
    ((TileGrid.grid exGridB).2.1 * 256, (TileGrid.grid exGridB).2.2 * 256) = (1024, 512) ∧
    ((600, 400) : ℤ × ℤ) ≠ ((1024, 512) : ℤ × ℤ) ∧
    ((0, 256) : ℤ × ℤ) ≠ ((3 * 256, 0) : ℤ × ℤ) := by
  have hg : TileGrid.grid exGridB = ((0, 0), (4, 2)) := by
    simp only [TileGrid.grid, TileGrid.overflow, TileGrid.bbox, TileGrid.tileunits,
      exGridB, exLayer, pyround, Int.fract]
    norm_num
  have hp : TileGrid.pixelsize exGridB = (600, 400) := by
    simp only [TileGrid.pixelsize, exGridB, exLayer, pyround, Int.fract]
    norm_num
  have hl : (TileGrid.tiles exGridB).length = 8 := by
    unfold TileGrid.tiles
    rw [hg]
    decide
  refine ⟨hg, hp, hl, by decide, ?_, by decide, by decide⟩
  rw [hg]
  decide

theorem countP_set_of_old_false {α : Type} (p : α → Bool) (l : List α) (w : ℕ) (a : α)
    (hw : w < l.length) (hold : p (l.get ⟨w, hw⟩) = false) :
    (l.set w a).countP p = l.countP p + (if p a then 1 else 0) := by
  induction l generalizing w with
  | nil => simp at hw
  | cons x t ih =>
    cases w with
    | zero =>
      simp only [List.get] at hold
      simp [List.countP_cons, hold, Nat.add_comm]
    | succ w =>
      have hw2 : w < t.length := by simpa using hw
      simp only [List.set]
      rw [List.countP_cons, List.countP_cons, ih w hw2 (by simpa using hold)]
      omega

theorem dcount_set_finished (ws : List WStatus) (w : ℕ) (hw : w < ws.length)
    (hr : ws[w] = WStatus.running) :
    dcount (ws.set w WStatus.finished) = dcount ws := by
  unfold dcount
  rw [countP_set_of_old_false _ ws w _ hw (by simp [hr])]
  simp

theorem dcount_set_dead (ws : List WStatus) (w : ℕ) (hw : w < ws.length)
    (hr : ws[w] = WStatus.running) :
    dcount (ws.set w WStatus.dead) = dcount ws + 1 := by
  unfold dcount
  rw [countP_set_of_old_false _ ws w _ hw (by simp [hr])]
  simp

theorem dcount_replicate_running (k : ℕ) :
    dcount (List.replicate k WStatus.running) = 0 := by
  induction k with
  | zero => rfl
  | succ k ih =>
    unfold dcount at ih ⊢
    rw [List.replicate_succ, List.countP_cons, ih]
    simp

/-- One atomic `_job` iteration preserves the fetch invariant. -/
theorem workerStep_inv (fetch : ℕ → Option ℕ) (n : ℕ) (s : FetchState) (w : ℕ)
    (h : FetchInv fetch n s) : FetchInv fetch n (workerStep fetch s w) := by
  obtain ⟨q, u, ws, res⟩ := s
  obtain ⟨h1, h2, h3, h4, h5, h6⟩ := h
  dsimp only at h1 h2 h3 h4 h5 h6
  by_cases hw : w < ws.length
  · by_cases hr : ws[w] = WStatus.running
    · cases q with
      | nil =>
        have hstep : workerStep fetch ⟨[], u, ws, res⟩ w =
            ⟨[], u, ws.set w WStatus.finished, res⟩ := by
          simp [workerStep, hw, hr]
        rw [hstep]
        refine ⟨?_, ?_, ?_, ?_, ?_, ?_⟩
        · show u = ([] : List ℕ).length + dcount (ws.set w WStatus.finished)
          rw [dcount_set_finished ws w hw hr]
          exact h1
        · show failCount fetch [] + dcount (ws.set w WStatus.finished) =
            failCount fetch (List.range n)
          rw [dcount_set_finished ws w hw hr]
          exact h2
        · intro _
          rfl
        · exact h4
        · exact h5
        · show (ws.set w WStatus.finished).length = min MAX_THREADS n
          rw [List.length_set]
          exact h6
      | cons i rest =>
        have hq3 : ¬ ∃ w0 ∈ ws, w0 = WStatus.finished := by
          intro hex
          have := h3 hex
          simp at this
        have h1q : u = rest.length + 1 + dcount ws := by
          rw [h1]
          simp [Nat.add_comm, Nat.add_assoc, Nat.add_left_comm]
        cases hf : fetch i with
        | some b =>
          have hstep : workerStep fetch ⟨i :: rest, u, ws, res⟩ w =
              ⟨rest, u - 1, ws, fun j => if j = i then some b else res j⟩ := by
            simp [workerStep, hw, hr, hf]
          rw [hstep]
          refine ⟨?_, ?_, ?_, ?_, ?_, ?_⟩
          · show u - 1 = rest.length + dcount ws
            omega
          · show failCount fetch rest + dcount ws = failCount fetch (List.range n)
            have hfc : failCount fetch (i :: rest) = failCount fetch rest := by
              simp [failCount, List.countP_cons, hf]
            rw [← hfc]
            exact h2
          · intro hex
            exact absurd hex hq3
          · intro j hj
            rcases h4 j hj with hmem | himp
            · rcases List.mem_cons.mp hmem with hji | hjr
              · right
                intro _
                show (if j = i then some b else res j) = fetch j
                simp [hji, hf]
              · left
                exact hjr
            · right
              intro hne
              show (if j = i then some b else res j) = fetch j
              by_cases hji : j = i
              · simp [hji, hf]
              · simpa [hji] using himp hne
          · show rest.length ≤ n
            have : (i :: rest).length ≤ n := h5
            simp at this
            omega
          · exact h6
        | none =>
          have hstep : workerStep fetch ⟨i :: rest, u, ws, res⟩ w =
              ⟨rest, u, ws.set w WStatus.dead, res⟩ := by
            simp [workerStep, hw, hr, hf]
          rw [hstep]
          refine ⟨?_, ?_, ?_, ?_, ?_, ?_⟩
          · show u = rest.length + dcount (ws.set w WStatus.dead)
            rw [dcount_set_dead ws w hw hr]
            omega
          · show failCount fetch rest + dcount (ws.set w WStatus.dead) =
              failCount fetch (List.range n)
            have hfc : failCount fetch (i :: rest) = failCount fetch rest + 1 := by
              simp [failCount, List.countP_cons, hf]
            rw [dcount_set_dead ws w hw hr]
            rw [hfc] at h2
            omega
          · intro hex
            obtain ⟨w0, hmem, hfin⟩ := hex
            rcases List.mem_or_eq_of_mem_set hmem with hmem2 | hdead
            · exact absurd ⟨w0, hmem2, hfin⟩ hq3
            · rw [hdead] at hfin
              exact absurd hfin (by simp)
          · intro j hj
            rcases h4 j hj with hmem | himp
            · rcases List.mem_cons.mp hmem with hji | hjr
              · right
                intro hne
                rw [hji] at hne
                exact absurd hf hne
              · left
                exact hjr
            · right
              exact himp
          · show rest.length ≤ n
            have : (i :: rest).length ≤ n := h5
            simp at this
            omega
          · show (ws.set w WStatus.dead).length = min MAX_THREADS n
            rw [List.length_set]
            exact h6
    · have hstep : workerStep fetch ⟨q, u, ws, res⟩ w = ⟨q, u, ws, res⟩ := by
        simp [workerStep, hw, hr]
      rw [hstep]
      exact ⟨h1, h2, h3, h4, h5, h6⟩
  · have hstep : workerStep fetch ⟨q, u, ws, res⟩ w = ⟨q, u, ws, res⟩ := by
      simp [workerStep, hw]
    rw [hstep]
    exact ⟨h1, h2, h3, h4, h5, h6⟩

/-- Any schedule preserves the fetch invariant. -/
theorem runFetch_inv (fetch : ℕ → Option ℕ) (n : ℕ) (sched : List ℕ) (s : FetchState)
    (h : FetchInv fetch n s) : FetchInv fetch n (runFetch fetch s sched) := by
  induction sched generalizing s with
  | nil => exact h
  | cons w tail ih =>
    rw [runFetch, List.foldl_cons]
    exact ih _ (workerStep_inv fetch n s w h)

/-- The initial state of `MapData.getlayer`'s fetch phase satisfies the
invariant. -/
theorem initState_inv (fetch : ℕ → Option ℕ) (n : ℕ) : FetchInv fetch n (initState n) := by
  refine ⟨?_, ?_, ?_, ?_, ?_, ?_⟩
  · show n = (List.range n).length + dcount (List.replicate (min MAX_THREADS n) WStatus.running)
    rw [dcount_replicate_running, List.length_range]
    omega
  · show failCount fetch (List.range n) +
      dcount (List.replicate (min MAX_THREADS n) WStatus.running) =
      failCount fetch (List.range n)
    rw [dcount_replicate_running]
    omega
  · intro hex
    obtain ⟨w0, hmem, hfin⟩ := hex
    have := List.eq_of_mem_replicate hmem
    rw [this] at hfin
    exact absurd hfin (by simp)
  · intro i hi
    left
    exact List.mem_range.mpr hi
  · show (List.range n).length ≤ n
    rw [List.length_range]
  · show (List.replicate (min MAX_THREADS n) WStatus.running).length = min MAX_THREADS n
    rw [List.length_replicate]

/-- When `queue.join()` unblocks (unfinished count zero), every fetch
succeeded and every tile position carries its fetched bytes. -/
theorem results_complete_of_unfinished_zero (fetch : ℕ → Option ℕ) (n : ℕ) (sched : List ℕ)
    (h0 : (runFetch fetch (initState n) sched).unfinished = 0) :
    ∀ i < n, (runFetch fetch (initState n) sched).results i = fetch i := by
  obtain ⟨h1, h2, h3, h4, h5, h6⟩ := runFetch_inv fetch n sched _ (initState_inv fetch n)
  intro i hi
  rw [h0] at h1
  have hql : (runFetch fetch (initState n) sched).queue.length = 0 := by omega
  have hq : (runFetch fetch (initState n) sched).queue = [] := List.length_eq_zero.mp hql
  have hdc : dcount (runFetch fetch (initState n) sched).workers = 0 := by omega
  have hfr : failCount fetch (List.range n) = 0 := by
    rw [← h2, hq]
    simp [failCount, hdc]
  have hne : fetch i ≠ none := by
    have := List.countP_eq_zero.mp hfr i (List.mem_range.mpr hi)
    simpa using this
  rcases h4 i hi with hmem | himp
  · rw [hq] at hmem
    simp at hmem
  · exact himp hne

/-- Claim C4 (amended): for every tile count, fetch outcome and worker
schedule, `MapData.getlayer` blocks on `queue.join()` until the unfinished
count is zero.  When no fetch fails and all workers have terminated, the
count is zero — the call returns normally with all `n` results recorded.  But
when any fetch fails, the unfinished count can never reach zero (the failing
worker dies before `queue.task_done()`), so `queue.join()` blocks the caller
forever: no `PartialFetchFailure` is raised — no such error exists in the
source — and sibling fetches are never cancelled. -/
theorem getlayer_join_behaviour (n : ℕ) (fetch : ℕ → Option ℕ) (sched : List ℕ) :
    ((∃ i < n, fetch i = none) → (runFetch fetch (initState n) sched).unfinished ≠ 0) ∧
    ((∀ i < n, fetch i ≠ none) →
      (∀ w ∈ (runFetch fetch (initState n) sched).workers, w ≠ WStatus.running) →
      (runFetch fetch (initState n) sched).unfinished = 0 ∧
      ∀ i < n, (runFetch fetch (initState n) sched).results i = fetch i) := by
  obtain ⟨h1, h2, h3, h4, h5, h6⟩ := runFetch_inv fetch n sched _ (initState_inv fetch n)
  constructor
  · rintro ⟨i, hi, hfail⟩ hzero
    have hpos : 0 < failCount fetch (List.range n) := by
      rw [failCount, List.countP_pos_iff]
      exact ⟨i, List.mem_range.mpr hi, by simp [hfail]⟩
    have hle : failCount fetch (runFetch fetch (initState n) sched).queue ≤
        (runFetch fetch (initState n) sched).queue.length :=
      List.countP_le_length _
    omega
  · intro hok hterm
    have hfr : failCount fetch (List.range n) = 0 := by
      rw [failCount, List.countP_eq_zero]
      intro i hi
      simpa using hok i (List.mem_range.mp hi)
    have hdc : dcount (runFetch fetch (initState n) sched).workers = 0 := by omega
    have hq : (runFetch fetch (initState n) sched).queue = [] := by
      rcases Nat.eq_zero_or_pos n with hn | hn
      · have : (runFetch fetch (initState n) sched).queue.length = 0 := by omega
        exact List.length_eq_zero.mp this
      · have hlen : 0 < (runFetch fetch (initState n) sched).workers.length := by
          rw [h6]
          simp [MAX_THREADS]
          omega
        set ws := (runFetch fetch (initState n) sched).workers with hws
        have hmem : ws.get ⟨0, hlen⟩ ∈ ws := List.get_mem ws 0 hlen
        have hnr : ws.get ⟨0, hlen⟩ ≠ WStatus.running := hterm _ hmem
        have hnd : ws.get ⟨0, hlen⟩ ≠ WStatus.dead := by
          intro hd
          have := List.countP_eq_zero.mp hdc _ hmem
          rw [hd] at this
          simp at this
        have hfin : ws.get ⟨0, hlen⟩ = WStatus.finished := by
          cases hcase : ws.get ⟨0, hlen⟩ <;> simp_all
        exact h3 ⟨ws.get ⟨0, hlen⟩, hmem, hfin⟩
    have hzero : (runFetch fetch (initState n) sched).unfinished = 0 := by
      rw [h1, hq]
      simpa using hdc
    refine ⟨hzero, ?_⟩
    intro i hi
    rcases h4 i hi with hmem | himp
    · rw [hq] at hmem
      simp at hmem
    · exact himp (hok i hi)

/-- Witness for `getlayer_join_behaviour`: with one tile whose fetch fails and
the single worker scheduled once, the unfinished count stays nonzero; with two
tiles fetched successfully by one worker run to completion, the count reaches
zero and both results are recorded. -/
theorem getlayer_join_behaviour_witness :
    ((∃ i < 1, exFetchFail i = none) ∧
      (runFetch exFetchFail (initState 1) [0]).unfinished ≠ 0) ∧
    ((∀ i < 2, (fun j => some (j + 100)) i ≠ none) ∧
      (∀ w ∈ (runFetch (fun j => some (j + 100)) (initState 2) [0, 0, 0, 1]).workers,
        w ≠ WStatus.running) ∧
      ((runFetch (fun j => some (j + 100)) (initState 2) [0, 0, 0, 1]).unfinished = 0 ∧
        ∀ i < 2, (runFetch (fun j => some (j + 100)) (initState 2) [0, 0, 0, 1]).results i =
          (fun j => some (j + 100)) i)) := by
  have hfail : ∃ i < 1, exFetchFail i = none := ⟨0, by decide, rfl⟩
  have hok : ∀ i < 2, (fun j => some (j + 100)) i ≠ none := by decide
  have hterm : ∀ w ∈ (runFetch (fun j => some (j + 100)) (initState 2) [0, 0, 0, 1]).workers,
      w ≠ WStatus.running := by decide
  exact ⟨⟨hfail, (getlayer_join_behaviour 1 exFetchFail [0]).1 hfail⟩,
    ⟨hok, hterm, (getlayer_join_behaviour 2 (fun j => some (j + 100)) [0, 0, 0, 1]).2 hok hterm⟩⟩

/-- Counterexample to claim C4 as stated: one tile, whose fetch fails, one
worker.  After the worker dies the state is a fixpoint — every worker has
terminated, yet the unfinished count is still 1, so `queue.join()` never
unblocks and `MapData.getlayer` neither returns nor raises any
`PartialFetchFailure` (the source defines no such error and `_job` swallows
nothing: the exception kills the worker thread silently). -/
theorem fetch_failure_blocks_caller :
    (∀ w ∈ (runFetch exFetchFail (initState 1) [0]).workers, w ≠ WStatus.running) ∧
    (runFetch exFetchFail (initState 1) [0]).unfinished = 1 ∧
    workerStep exFetchFail (runFetch exFetchFail (initState 1) [0]) 0 =
      runFetch exFetchFail (initState 1) [0] := by
  refine ⟨by decide, by decide, ?_⟩
  have h : runFetch exFetchFail (initState 1) [0] =
      ⟨[], 1, [WStatus.dead], fun _ => none⟩ := by
    rfl
  rw [h]
  rfl

/-- Claim C5: however the concurrent workers interleave, once `queue.join()`
unblocks the bytes recorded at position `i` are exactly the bytes fetched for
the tile coordinate at input position `i` of the tile list handed to the
stitcher. -/
theorem fetch_results_preserve_order (tilelist : List (ℤ × ℤ))
    (fetchBytes : ℤ × ℤ → Option ℕ) (sched : List ℕ)
    (h0 : (runGetlayer tilelist fetchBytes sched).unfinished = 0) :
    ∀ i (hi : i < tilelist.length),
      (runGetlayer tilelist fetchBytes sched).results i =
        fetchBytes (tilelist.get ⟨i, hi⟩) := by
  intro i hi
  have h := results_complete_of_unfinished_zero
    (fun j => fetchBytes (tilelist.getD j (0, 0))) tilelist.length sched h0 i hi
  rw [runGetlayer, h]
  show fetchBytes (tilelist.getD i (0, 0)) = fetchBytes (tilelist.get ⟨i, hi⟩)
  rw [List.getD_eq_getElem tilelist (0, 0) hi]
  rfl

/-- Witness for `fetch_results_preserve_order` on a two-tile list fetched by a
single worker run to completion. -/
theorem fetch_results_preserve_order_witness :
    ((runGetlayer [((0 : ℤ), (1 : ℤ)), ((1 : ℤ), (1 : ℤ))] exFetchOk [0, 0, 0]).unfinished = 0) ∧
    (runGetlayer [((0 : ℤ), (1 : ℤ)), ((1 : ℤ), (1 : ℤ))] exFetchOk [0, 0, 0]).results 0 =
      exFetchOk ([((0 : ℤ), (1 : ℤ)), ((1 : ℤ), (1 : ℤ))].get ⟨0, by decide⟩) ∧
    (runGetlayer [((0 : ℤ), (1 : ℤ)), ((1 : ℤ), (1 : ℤ))] exFetchOk [0, 0, 0]).results 1 =
      exFetchOk ([((0 : ℤ), (1 : ℤ)), ((1 : ℤ), (1 : ℤ))].get ⟨1, by decide⟩) := by
  have h0 : (runGetlayer [((0 : ℤ), (1 : ℤ)), ((1 : ℤ), (1 : ℤ))]
      exFetchOk [0, 0, 0]).unfinished = 0 := by decide
  exact ⟨h0,
    fetch_results_preserve_order _ exFetchOk [0, 0, 0] h0 0 (by decide),
    fetch_results_preserve_order _ exFetchOk [0, 0, 0] h0 1 (by decide)⟩

/-- Characterisation of the floor logarithm used by `scaleFactor`:
`Int.log 2 q = k` whenever `2^k ≤ q < 2^(k+1)`. -/
theorem intLog2_eq (q : ℚ) (k : ℤ) (h1 : (2 : ℚ) ^ k ≤ q) (h2 : q < (2 : ℚ) ^ (k + 1)) :
    Int.log 2 q = k := by
  have hq : 0 < q := lt_of_lt_of_le (by positivity) h1
  have hcast : ((2 : ℕ) : ℚ) = (2 : ℚ) := by norm_num
  have ha : k ≤ Int.log 2 q := by
    rw [← Int.zpow_le_iff_le_log (by norm_num) hq, hcast]
    exact h1
  have hb : Int.log 2 q < k + 1 := by
    rw [← Int.lt_zpow_iff_log_lt (by norm_num) hq, hcast]
    exact h2
  omega

/-- Claim C6 (amended): the zoom adjustment of `Image.__init__` is monotone in
the scale only within one octave of the reference scale 100000: whenever
`2^k * 100000 ≤ s1 ≤ s2 < 2^(k+1) * 100000`, the level selected for `s2` is
at least the one selected for `s1`.  Across octave boundaries the fractional
part of `log2(scale/100000)` resets, so global monotonicity fails (see the
counterexample). -/
theorem zoom_monotone_within_octave (z k : ℤ) (s1 s2 : ℚ)
    (hlo : (2 : ℚ) ^ k * 100000 ≤ s1) (h12 : s1 ≤ s2)
    (hhi : s2 < (2 : ℚ) ^ (k + 1) * 100000) :
    zoomAdjust s1 z ≤ zoomAdjust s2 z := by
  have h2k : (0 : ℚ) < 2 ^ k := by positivity
  have hq1lo : (2 : ℚ) ^ k ≤ s1 / 100000 := by
    rw [le_div_iff₀ (by norm_num)]
    linarith
  have hq1hi : s1 / 100000 < (2 : ℚ) ^ (k + 1) := by
    rw [div_lt_iff₀ (by norm_num)]
    linarith
  have hq2lo : (2 : ℚ) ^ k ≤ s2 / 100000 := by
    rw [le_div_iff₀ (by norm_num)]
    linarith
  have hq2hi : s2 / 100000 < (2 : ℚ) ^ (k + 1) := by
    rw [div_lt_iff₀ (by norm_num)]
    linarith
  have hmono : s1 / 100000 / 2 ^ k ≤ s2 / 100000 / 2 ^ k := by
    gcongr
  rw [zoomAdjust, zoomAdjust, scaleFactor, scaleFactor,
    intLog2_eq _ k hq1lo hq1hi, intLog2_eq _ k hq2lo hq2hi]
  split_ifs with hb1 hb2
  · omega
  · exfalso
    rw [LOD_BOUNDARY] at hb1 hb2
    linarith
  · omega
  · omega

/-- Witness for `zoom_monotone_within_octave` in the octave
`[200000, 400000)` at scales 200000 and 250000. -/
theorem zoom_monotone_within_octave_witness :
    ((2 : ℚ) ^ (1 : ℤ) * 100000 ≤ 200000 ∧ (200000 : ℚ) ≤ 250000 ∧
      (250000 : ℚ) < (2 : ℚ) ^ ((1 : ℤ) + 1) * 100000) ∧
    zoomAdjust 200000 0 ≤ zoomAdjust 250000 0 := by
  have h1 : (2 : ℚ) ^ (1 : ℤ) * 100000 ≤ 200000 := by norm_num
  have h2 : (200000 : ℚ) ≤ 250000 := by norm_num
  have h3 : (250000 : ℚ) < (2 : ℚ) ^ ((1 : ℤ) + 1) * 100000 := by norm_num
  exact ⟨⟨h1, h2, h3⟩, zoom_monotone_within_octave 0 1 200000 250000 h1 h2 h3⟩

/-- Counterexample to claim C6 as stated: zoom selection is not monotonic in
the scale denominator over `1:1000 .. 1:1000000`.  Scale 150000 gets a zoom
adjustment of `+1`, scale 200000 of `+0`, and scale 300000 again of `+1`:
the selection both decreases (150000 → 200000) and increases
(200000 → 300000) with growing scale, so whichever direction "finer" maps
to, monotonicity fails. -/
theorem zoom_selection_not_monotonic :
    zoomAdjust 150000 0 = 1 ∧ zoomAdjust 200000 0 = 0 ∧ zoomAdjust 300000 0 = 1 := by
  have hl1 : Int.log 2 ((150000 : ℚ) / 100000) = 0 :=
    intLog2_eq _ 0 (by norm_num) (by norm_num)
  have hl2 : Int.log 2 ((200000 : ℚ) / 100000) = 1 :=
    intLog2_eq _ 1 (by norm_num) (by norm_num)
  have hl3 : Int.log 2 ((300000 : ℚ) / 100000) = 1 :=
    intLog2_eq _ 1 (by norm_num) (by norm_num)
  refine ⟨?_, ?_, ?_⟩
  · rw [zoomAdjust, scaleFactor, hl1, LOD_BOUNDARY]
    norm_num
  · rw [zoomAdjust, scaleFactor, hl2, LOD_BOUNDARY]
    norm_num
  · rw [zoomAdjust, scaleFactor, hl3, LOD_BOUNDARY]
    norm_num

/-- Claim C7: for every positive scale, the grid overlay spacing of
`Layout._drawgrid` equals `ceil(minSpacing / kmPerUnit) * kmPerUnit` with
`kmPerUnit = 1000000 / scale` and `minSpacing = 30`; hence the spacing is an
integer multiple of `kmPerUnit` and is at least 30, and for scale 25000 it is
exactly 40. -/
theorem gridSpacing_formula (scale : ℤ) (hs : 0 < scale) :
    gridSize scale = ⌈(30 : ℚ) / kmSize scale⌉ ∧
    gridSpacing scale = (⌈(30 : ℚ) / kmSize scale⌉ : ℚ) * kmSize scale ∧
    MIN_GRID_SPACING ≤ gridSpacing scale ∧
    (scale = 25000 → gridSpacing scale = 40) := by
  have hsq : (0 : ℚ) < (scale : ℚ) := by exact_mod_cast hs
  have hk : (0 : ℚ) < kmSize scale := by
    rw [kmSize]
    positivity
  have hmain : gridSize scale = ⌈(30 : ℚ) / kmSize scale⌉ := by
    rw [gridSize, MIN_GRID_SPACING]
    rcases le_or_lt (kmSize scale) 30 with hle | hlt
    · rw [max_eq_left hle]
    · rw [max_eq_right hlt.le, div_self hk.ne']
      rw [show ⌈(1 : ℚ)⌉ = 1 from by norm_num]
      symm
      rw [Int.ceil_eq_iff]
      constructor
      · have hpos : (0 : ℚ) < 30 / kmSize scale := by positivity
        push_cast
        linarith
      · push_cast
        rw [div_le_one hk]
        linarith
  refine ⟨hmain, by rw [gridSpacing, hmain], ?_, ?_⟩
  · rw [gridSpacing, hmain, MIN_GRID_SPACING]
    have hceil : (30 : ℚ) / kmSize scale ≤ (⌈(30 : ℚ) / kmSize scale⌉ : ℚ) := Int.le_ceil _
    rw [← div_le_iff₀ hk]
    exact hceil
  · intro h25
    subst h25
    have hkm : kmSize 25000 = 40 := by
      rw [kmSize]
      norm_num
    rw [gridSpacing, hmain, hkm]
    norm_num
    rw [Int.ceil_eq_iff]
    constructor <;> norm_num

/-- Witness for `gridSpacing_formula` at scale 25000. -/
theorem gridSpacing_formula_witness :
    (0 : ℤ) < 25000 ∧
    (gridSize 25000 = ⌈(30 : ℚ) / kmSize 25000⌉ ∧
     gridSpacing 25000 = (⌈(30 : ℚ) / kmSize 25000⌉ : ℚ) * kmSize 25000 ∧
     MIN_GRID_SPACING ≤ gridSpacing 25000 ∧
     ((25000 : ℤ) = 25000 → gridSpacing 25000 = 40)) :=
  ⟨by norm_num, gridSpacing_formula 25000 (by norm_num)⟩

/-- Claim C8: for rasters of identical pixel dimensions, blending with opacity
0 returns the base unchanged and blending with opacity 1 returns the overlay
unchanged. -/
theorem blend_boundary_identity (base overlay : Raster)
    (hw : base.width = overlay.width) (hh : base.height = overlay.height) :
    blend base overlay 0 = some base ∧ blend base overlay 1 = some overlay := by
  obtain ⟨bw, bh, bp⟩ := base
  obtain ⟨ow, oh, op⟩ := overlay
  simp only at hw hh
  subst hw hh
  constructor
  · rw [blend, if_pos ⟨rfl, rfl⟩]
    congr 1
    rw [Raster.mk.injEq]
    refine ⟨rfl, rfl, ?_⟩
    funext x y
    have harg : ((1 : ℚ) - 0) * (bp x y : ℚ) + 0 * (op x y : ℚ) = ((bp x y : ℤ) : ℚ) := by
      ring
    simp only [harg, pyround_intCast]
  · rw [blend, if_pos ⟨rfl, rfl⟩]
    congr 1
    rw [Raster.mk.injEq]
    refine ⟨rfl, rfl, ?_⟩
    funext x y
    have harg : ((1 : ℚ) - 1) * (bp x y : ℚ) + 1 * (op x y : ℚ) = ((op x y : ℤ) : ℚ) := by
      ring
    simp only [harg, pyround_intCast]

/-- Witness for `blend_boundary_identity` on two concrete 1×1 rasters. -/
theorem blend_boundary_identity_witness :
    (exBase.width = exOverlay.width ∧ exBase.height = exOverlay.height) ∧
    blend exBase exOverlay 0 = some exBase ∧ blend exBase exOverlay 1 = some exOverlay :=
  ⟨⟨rfl, rfl⟩, blend_boundary_identity exBase exOverlay rfl rfl⟩

/-- Claim C9: `Image.__init__` fails (with the spec's `InvalidScale`, raised
by `math.log` on a non-positive argument) exactly when `scale ≤ 0`, and for
every positive scale it succeeds. -/
theorem imageInit_scale_validation (scale zoom : ℤ) :
    (scale ≤ 0 → imageInit scale zoom = Except.error ScaleError.invalidScale) ∧
    (0 < scale → imageInit scale zoom = Except.ok (imageValues scale zoom)) := by
  constructor
  · intro h
    rw [imageInit, if_pos h]
  · intro h
    rw [imageInit, if_neg (by omega)]

/-- Witness for `imageInit_scale_validation` at scales -5 and 25000. -/
theorem imageInit_scale_validation_witness :
    ((-5 : ℤ) ≤ 0 ∧ imageInit (-5) 3 = Except.error ScaleError.invalidScale) ∧
    ((0 : ℤ) < 25000 ∧ imageInit 25000 0 = Except.ok (imageValues 25000 0)) :=
  ⟨⟨by norm_num, (imageInit_scale_validation (-5) 3).1 (by norm_num)⟩,
   ⟨by norm_num, (imageInit_scale_validation 25000 0).2 (by norm_num)⟩⟩

/-- Claim C10: constructing a `Sheet` raises `ValueError` for every paper
size index greater than `MIN_PAPER_SIZE = 5` (paper smaller than A5) and
succeeds for every index at most 5; the check involves nothing but the size
index, so it happens before any scale or grid computation. -/
theorem sheetInit_size_validation (size : ℕ) (rotated : Bool) :
    (MIN_PAPER_SIZE < size →
      sheetInit size rotated = Except.error "Paper size must not be smaller than A5") ∧
    (size ≤ MIN_PAPER_SIZE → sheetInit size rotated = Except.ok ⟨size, rotated⟩) := by
  constructor
  · intro h
    rw [sheetInit, if_pos h]
  · intro h
    rw [sheetInit, if_neg (by omega)]

/-- Witness for `sheetInit_size_validation` at size indices 6 (A6, rejected)
and 4 (A4, accepted). -/
theorem sheetInit_size_validation_witness :
    (MIN_PAPER_SIZE < 6 ∧
      sheetInit 6 false = Except.error "Paper size must not be smaller than A5") ∧
    (4 ≤ MIN_PAPER_SIZE ∧ sheetInit 4 true = Except.ok ⟨4, true⟩) :=
  ⟨⟨by norm_num [MIN_PAPER_SIZE], (sheetInit_size_validation 6 false).1
      (by norm_num [MIN_PAPER_SIZE])⟩,
   ⟨by norm_num [MIN_PAPER_SIZE], (sheetInit_size_validation 4 true).2
      (by norm_num [MIN_PAPER_SIZE])⟩⟩

end Tastopo
